import Mathlib

/-!
Shallow embedding of the ACP agent run-lifecycle tracker
(`src/agent/agent.ts`, class `ACPAgent`) and the resume route handler
(`src/server/routes.ts`), together with proofs of the specified
properties of the run tracker, session registry and message converter.

Maps (`Map<K, V>`) are modelled as association lists over `String`
keys; `mfind` models `Map.get`, `mset` models `Map.set` (replace the
binding when the key is present, append it otherwise).  Timestamps
(`new Date().toISOString()`) are modelled as `Nat` values supplied by
the caller of each operation.  The external LLM call is modelled as a
function from the converted messages to `Except String String`:
`.error msg` models the call throwing an `Error` with that message,
`.ok content` models a response whose `content` field is returned.
-/

namespace ACP

/-- Lookup in an association-list map, modelling `Map.get`. -/
def mfind {α : Type} (m : List (String × α)) (k : String) : Option α :=
  match m with
  | [] => none
  | (k1, v) :: rest => if k1 = k then some v else mfind rest k

/-- Update in an association-list map, modelling `Map.set`: replaces the
binding when the key is present, appends it otherwise. -/
def mset {α : Type} (m : List (String × α)) (k : String) (v : α) :
    List (String × α) :=
  match m with
  | [] => [(k, v)]
  | (k1, v1) :: rest =>
    if k1 = k then (k, v) :: rest else (k1, v1) :: mset rest k v

/-- The run status values of the ACP SDK (`RunStatus`). -/
inductive RunStatus
  | created
  | inProgress
  | awaiting
  | cancelling
  | cancelled
  | completed
  | failed
deriving DecidableEq, Repr

/-- A status is terminal when it is `completed`, `failed` or `cancelled`. -/
def RunStatus.isTerminal : RunStatus → Bool
  | .completed => true
  | .failed => true
  | .cancelled => true
  | _ => false

/-- One typed part of a message envelope (`MessagePart`).  Optional
fields of the wire type are modelled with `Option`. -/
structure MessagePart where
  content_type : Option String
  content : Option String
  content_encoding : Option String
  metadata : Option String
deriving DecidableEq, Repr

/-- A message envelope (`Message`): a role tag and an ordered list of
typed parts. -/
structure Message where
  role : String
  parts : List MessagePart
  created_at : Option Nat
  completed_at : Option Nat
deriving DecidableEq, Repr

/-- The structured error stored on a failed run (`ErrorModel`). -/
structure ErrorModel where
  code : String
  message : String
  data : Option String
deriving DecidableEq, Repr

/-- A run record (`Run`), exactly the fields the agent writes. -/
structure Run where
  agent_name : String
  session_id : String
  run_id : String
  status : RunStatus
  await_request : Option String
  output : List Message
  error : Option ErrorModel
  created_at : Nat
  finished_at : Option Nat
deriving DecidableEq, Repr

/-- An event in a run's event log (`Event`): a type tag such as
`run.created` and a snapshot of the run at that instant. -/
structure Event where
  type : String
  run : Run
deriving DecidableEq, Repr

/-- A session registry entry: the ordered list of run ids created under
the session plus a creation timestamp. -/
structure SessionEntry where
  runs : List String
  createdAt : Nat
deriving DecidableEq, Repr

/-- A flat `(role, content)` pair for the LLM backend. -/
structure LLMMessage where
  role : String
  content : String
deriving DecidableEq, Repr

/-- The mutable state of an `ACPAgent`: the agent name from its
manifest plus the three maps `runs`, `runEvents` and `sessions`. -/
structure AgentState where
  agentName : String
  runs : List (String × Run)
  runEvents : List (String × List Event)
  sessions : List (String × SessionEntry)
deriving DecidableEq, Repr

/-- A freshly constructed agent: all three maps empty
(`ACPAgent` constructor). -/
def agentInit (agentName : String) : AgentState :=
  { agentName := agentName, runs := [], runEvents := [], sessions := [] }

/-- Whether a part passes the text filter
`part.content_type && part.content_type.startsWith('text/')`; an absent
or empty `content_type` is falsy in JavaScript. -/
def isTextPart (part : MessagePart) : Bool :=
  match part.content_type with
  | none => false
  | some ct => if ct = "" then false else ct.startsWith "text/"

/-- Model of `ACPAgent.convertACPMessagesToLLM`: one flat pair per envelope; the
text is the newline join of the text-typed parts (missing `content`
becomes the empty string); the role is `assistant` when the envelope
role starts with `agent`, `user` otherwise. -/
def convertACPMessagesToLLM (messages : List Message) : List LLMMessage :=
  messages.map fun message =>
    let textContent := String.intercalate "\n"
      ((message.parts.filter isTextPart).map fun part => part.content.getD "")
    let role :=
      if message.role.startsWith "agent" then "assistant"
      else if message.role = "user" then "user"
      else "user"
    { role := role, content := textContent }

/-- Model of `ACPAgent.convertLLMResponseToACP`: wraps the backend content into a
single outbound envelope with one `text/plain` part, role
`agent/<name>`, timestamped at conversion time. -/
def convertLLMResponseToACP (agentName : String) (content : String) (t : Nat) :
    List Message :=
  [{ role := "agent/" ++ agentName,
     parts := [{ content_type := some "text/plain", content := some content,
                 content_encoding := some "plain", metadata := none }],
     created_at := some t, completed_at := some t }]

/-- Model of `ACPAgent.emitEvent`: appends an event to the run's log, starting
from the empty list when the run has no log yet. -/
def emitEvent (st : AgentState) (runId : String) (e : Event) : AgentState :=
  let events := (mfind st.runEvents runId).getD []
  { st with runEvents := mset st.runEvents runId (events ++ [e]) }

/-- The session-ensure step of `ACPAgent.runACP`: creates an empty
session entry when the session id is absent. -/
def ensureSession (st : AgentState) (sessionId : String) (t0 : Nat) : AgentState :=
  if (mfind st.sessions sessionId).isSome then st
  else { st with sessions := mset st.sessions sessionId { runs := [], createdAt := t0 } }

/-- The `this.sessions.get(sessionId)!.runs.push(runId)` step of
`ACPAgent.runACP` (the session entry is always present at this point). -/
def sessionPush (sessions : List (String × SessionEntry)) (sessionId runId : String) :
    List (String × SessionEntry) :=
  match mfind sessions sessionId with
  | some entry => mset sessions sessionId { entry with runs := entry.runs ++ [runId] }
  | none => sessions

/-- The initial run record built by `ACPAgent.runACP` and stored before
the backend call: note its status is `in-progress`. -/
def initialRun (agentName sessionId runId : String) (t0 : Nat) : Run :=
  { agent_name := agentName, session_id := sessionId, run_id := runId,
    status := .inProgress, await_request := none, output := [], error := none,
    created_at := t0, finished_at := none }

/-- Model of `ACPAgent.runACP`: ensures the session, stores the fresh
`in-progress` record, resets the run's event log, registers the run id
under the session, emits `run.created` and `run.in-progress`, calls
the backend on the converted input, then stores and returns either the
completed or the failed record, emitting the matching event.  `t0`
models `startTime`, `t1` the completion-time `new Date()`. -/
def runACP (st : AgentState) (input : List Message) (runId sessionId : String)
    (llm : List LLMMessage → Except String String) (t0 t1 : Nat) :
    AgentState × Run :=
  let st := ensureSession st sessionId t0
  let run := initialRun st.agentName sessionId runId t0
  let st := { st with runs := mset st.runs runId run,
                      runEvents := mset st.runEvents runId [],
                      sessions := sessionPush st.sessions sessionId runId }
  let st := emitEvent st runId { type := "run.created", run := run }
  let st := emitEvent st runId { type := "run.in-progress",
                                 run := { run with status := .inProgress } }
  match llm (convertACPMessagesToLLM input) with
  | .ok content =>
    let outputMessages := convertLLMResponseToACP st.agentName content t1
    let completedRun : Run :=
      { run with status := .completed, output := outputMessages,
                 finished_at := some t1 }
    let st := { st with runs := mset st.runs runId completedRun }
    let st := emitEvent st runId { type := "run.completed", run := completedRun }
    (st, completedRun)
  | .error msg =>
    let failedRun : Run :=
      { agent_name := st.agentName, session_id := sessionId, run_id := runId,
        status := .failed, await_request := none, output := [],
        error := some { code := "server_error", message := msg, data := none },
        created_at := t0, finished_at := some t1 }
    let st := { st with runs := mset st.runs runId failedRun }
    let st := emitEvent st runId { type := "run.failed", run := failedRun }
    (st, failedRun)

/-- Model of `ACPAgent.getRun`. -/
def getRun (st : AgentState) (runId : String) : Option Run :=
  mfind st.runs runId

/-- Model of `ACPAgent.getRunEvents`. -/
def getRunEvents (st : AgentState) (runId : String) : Option (List Event) :=
  mfind st.runEvents runId

/-- Model of `ACPAgent.cancelRun`: `none` when the run is unknown; an already
finished run is returned unchanged; otherwise the run transitions to
`cancelled`, `finished_at` is set and `run.cancelled` is emitted. -/
def cancelRun (st : AgentState) (runId : String) (now : Nat) :
    AgentState × Option Run :=
  match mfind st.runs runId with
  | none => (st, none)
  | some run =>
    if run.status = .completed ∨ run.status = .failed ∨ run.status = .cancelled then
      (st, some run)
    else
      let cancelledRun : Run :=
        { run with status := .cancelled, finished_at := some now }
      let st := { st with runs := mset st.runs runId cancelledRun }
      let st := emitEvent st runId { type := "run.cancelled", run := cancelledRun }
      (st, some cancelledRun)

/-- Model of `ACPAgent.resumeRun`: `none` unless the run exists with status
`awaiting`; otherwise marks the run `completed`, sets `finished_at`,
emits `run.completed`.  The resume payload is ignored by the code. -/
def resumeRun (st : AgentState) (runId : String) (_awaitResume : Option String)
    (now : Nat) : AgentState × Option Run :=
  match mfind st.runs runId with
  | none => (st, none)
  | some run =>
    if run.status ≠ .awaiting then (st, none)
    else
      let resumedRun : Run :=
        { run with status := .completed, finished_at := some now }
      let st := { st with runs := mset st.runs runId resumedRun }
      let st := emitEvent st runId { type := "run.completed", run := resumedRun }
      (st, some resumedRun)

/-- An HTTP response of the resume route: status code, optional error
code of the JSON body, optional returned run. -/
structure HttpResponse where
  httpStatus : Nat
  code : Option String
  run : Option Run
deriving DecidableEq, Repr

/-- The `POST /runs/:run_id` (resume) handler of `createRoutes`:
404 `not_found` for an unknown run, 400 `invalid_input` when the run is
not `awaiting`, otherwise resumes and answers 202 (async mode) or
200. -/
def resumeRoute (st : AgentState) (runId : String) (awaitResume : Option String)
    (modeAsync : Bool) (now : Nat) : AgentState × HttpResponse :=
  match getRun st runId with
  | none => (st, { httpStatus := 404, code := some "not_found", run := none })
  | some run =>
    if run.status ≠ .awaiting then
      (st, { httpStatus := 400, code := some "invalid_input", run := none })
    else
      let result := resumeRun st runId awaitResume now
      if modeAsync then
        (result.1, { httpStatus := 202, code := none, run := result.2 })
      else
        (result.1, { httpStatus := 200, code := none, run := result.2 })

/-- The run record `runACP` returns (and finally stores): the completed
record on backend success, the failed record on backend error. -/
def acpRunResult (agentName : String) (input : List Message)
    (runId sessionId : String) (llm : List LLMMessage → Except String String)
    (t0 t1 : Nat) : Run :=
  match llm (convertACPMessagesToLLM input) with
  | .ok content =>
    { initialRun agentName sessionId runId t0 with
        status := .completed,
        output := convertLLMResponseToACP agentName content t1,
        finished_at := some t1 }
  | .error msg =>
    { agent_name := agentName, session_id := sessionId, run_id := runId,
      status := .failed, await_request := none, output := [],
      error := some { code := "server_error", message := msg, data := none },
      created_at := t0, finished_at := some t1 }

/-- The type tag of the third event `runACP` emits. -/
def acpFinalEventType (input : List Message)
    (llm : List LLMMessage → Except String String) : String :=
  match llm (convertACPMessagesToLLM input) with
  | .ok _ => "run.completed"
  | .error _ => "run.failed"

/-- The full event log one `runACP` execution leaves for its run id. -/
def acpRunEvents (agentName : String) (input : List Message)
    (runId sessionId : String) (llm : List LLMMessage → Except String String)
    (t0 t1 : Nat) : List Event :=
  let run := initialRun agentName sessionId runId t0
  [ { type := "run.created", run := run },
    { type := "run.in-progress", run := { run with status := .inProgress } },
    { type := acpFinalEventType input llm,
      run := acpRunResult agentName input runId sessionId llm t0 t1 } ]

/-- One public tracker operation, as invoked by the routes layer. -/
inductive Op
  | runOp (input : List Message) (runId sessionId : String)
      (llm : List LLMMessage → Except String String) (t0 t1 : Nat)
  | cancelOp (runId : String) (now : Nat)
  | resumeOp (runId : String) (awaitResume : Option String) (now : Nat)

/-- State effect of one public tracker operation. -/
def step (st : AgentState) : Op → AgentState
  | .runOp input runId sessionId llm t0 t1 =>
    (runACP st input runId sessionId llm t0 t1).1
  | .cancelOp runId now => (cancelRun st runId now).1
  | .resumeOp runId awaitResume now => (resumeRun st runId awaitResume now).1

/-- State after a sequence of public tracker operations. -/
def execTrace (st : AgentState) (ops : List Op) : AgentState :=
  ops.foldl step st

/-- Whether an operation respects run-id freshness: a `runACP` call must
use a run id not yet present in the run table. -/
def opFresh (st : AgentState) : Op → Bool
  | .runOp _ runId _ _ _ _ => (mfind st.runs runId).isNone
  | _ => true

/-- Whether every `runACP` in the trace uses a fresh run id at the
moment it executes. -/
def freshTrace : AgentState → List Op → Bool
  | _, [] => true
  | st, op :: ops => opFresh st op && freshTrace (step st op) ops

/-- Number of times one operation writes the record of run `r` into the
run table (a `runACP` writes the in-progress record and then the
terminal record; `cancelRun`/`resumeRun` write once when they apply). -/
def opRunWrites (st : AgentState) : Op → String → Nat
  | .runOp _ runId _ _ _ _, r => if runId = r then 2 else 0
  | .cancelOp runId _, r =>
    if runId = r then
      match mfind st.runs r with
      | none => 0
      | some run =>
        if run.status = .completed ∨ run.status = .failed ∨
            run.status = .cancelled then 0 else 1
    else 0
  | .resumeOp runId _ _, r =>
    if runId = r then
      match mfind st.runs r with
      | none => 0
      | some run => if run.status = .awaiting then 1 else 0
    else 0

/-- Number of status transitions run `r` undergoes along a trace,
counted as record writes into the run table. -/
def traceWrites : AgentState → List Op → String → Nat
  | _, [], _ => 0
  | st, op :: ops, r => opRunWrites st op r + traceWrites (step st op) ops r

/-- The event log stored for a run (empty when absent). -/
def runEventsOf (st : AgentState) (r : String) : List Event :=
  (mfind st.runEvents r).getD []

/-- The ordered run-id list of a session (empty when absent). -/
def sessionRunsOf (st : AgentState) (sid : String) : List String :=
  ((mfind st.sessions sid).getD { runs := [], createdAt := 0 }).runs

/-- The record a non-terminal run is replaced by on cancellation. -/
def cancelledOf (run : Run) (now : Nat) : Run :=
  { run with status := .cancelled, finished_at := some now }

/-- The record an awaiting run is replaced by on resume. -/
def resumedOf (run : Run) (now : Nat) : Run :=
  { run with status := .completed, finished_at := some now }

/-- Whether run `r` is currently absent or stored with a non-terminal
status. -/
def nonTerminalOrAbsent (st : AgentState) (r : String) : Bool :=
  match mfind st.runs r with
  | none => true
  | some run => !run.status.isTerminal

/-- Number of run records one operation creates for run id `r`. -/
def opCreates : Op → String → Nat
  | .runOp _ runId _ _ _ _, r => if runId = r then 1 else 0
  | _, _ => 0

/-- Number of run records a trace creates for run id `r`. -/
def traceCreates : List Op → String → Nat
  | [], _ => 0
  | op :: ops, r => opCreates op r + traceCreates ops r

/-- Runs absent from the run table have no events. -/
def eventsDomInv (st : AgentState) : Prop :=
  ∀ r, mfind st.runs r = none → runEventsOf st r = []

/-- The last event of every stored run embeds exactly the stored
record. -/
def lastEventInv (st : AgentState) : Prop :=
  ∀ r run, mfind st.runs r = some run →
    ∃ e : Event, (runEventsOf st r).getLast? = some e ∧ e.run = run

/-- A sample backend that answers `4`. -/
def sampleLLM : List LLMMessage → Except String String :=
  fun _ => Except.ok "4"

/-- A sample backend whose call raises a timeout error. -/
def failLLM : List LLMMessage → Except String String :=
  fun _ => Except.error "Request timeout"

/-- A sample creation-and-execution operation for run `r1`. -/
def sampleOp : Op := Op.runOp [] "r1" "s1" sampleLLM 0 1

/-- The completed record `sampleOp` leaves for run `r1`. -/
def sampleCompletedRun : Run :=
  { agent_name := "my-agent", session_id := "s1", run_id := "r1",
    status := .completed, await_request := none,
    output := convertLLMResponseToACP "my-agent" "4" 1,
    error := none, created_at := 0, finished_at := some 1 }

/-- A sample in-progress record for run `r2`. -/
def sampleInProgressRun : Run :=
  { agent_name := "my-agent", session_id := "s1", run_id := "r2",
    status := .inProgress, await_request := none, output := [],
    error := none, created_at := 0, finished_at := none }

/-- A sample awaiting record for run `r3`. -/
def sampleAwaitingRun : Run :=
  { agent_name := "my-agent", session_id := "s1", run_id := "r3",
    status := .awaiting, await_request := some "tool-input",
    output := [], error := none, created_at := 0, finished_at := none }

/-- A sample tracker state holding the terminal run `r1`. -/
def sampleTerminalState : AgentState :=
  { agentName := "my-agent",
    runs := [("r1", sampleCompletedRun)],
    runEvents := [("r1", [{ type := "run.completed", run := sampleCompletedRun }])],
    sessions := [("s1", { runs := ["r1"], createdAt := 0 })] }

/-- A sample tracker state holding the in-progress run `r2`. -/
def sampleActiveState : AgentState :=
  { agentName := "my-agent",
    runs := [("r2", sampleInProgressRun)],
    runEvents := [("r2", [{ type := "run.created", run := sampleInProgressRun }])],
    sessions := [("s1", { runs := ["r2"], createdAt := 0 })] }

/-- A sample tracker state holding the awaiting run `r3`. -/
def sampleAwaitingState : AgentState :=
  { agentName := "my-agent",
    runs := [("r3", sampleAwaitingRun)],
    runEvents := [("r3", [{ type := "run.created", run := sampleAwaitingRun }])],
    sessions := [("s1", { runs := ["r3"], createdAt := 0 })] }

/-- The inbound conversion as the spec words it: one pair per envelope,
text obtained by keeping the text-typed parts in order and joining
their contents with a newline, role `assistant` exactly when the
envelope role begins with the agent-role prefix. -/
def specInboundPair (message : Message) : LLMMessage :=
  { role := if message.role.startsWith "agent" then "assistant" else "user",
    content := String.intercalate "\n"
      (message.parts.filterMap fun part =>
        if isTextPart part then some (part.content.getD "") else none) }

theorem mfind_mset_self {α : Type} (m : List (String × α)) (k : String) (v : α) :
    mfind (mset m k v) k = some v := by
  induction m with
  | nil => simp [mfind, mset]
  | cons hd tl ih =>
    obtain ⟨k1, v1⟩ := hd
    by_cases h : k1 = k
    · simp [mfind, mset, h]
    · simp [mfind, mset, h, ih]

theorem mfind_mset_ne {α : Type} (m : List (String × α)) (k k2 : String) (v : α)
    (h : k2 ≠ k) : mfind (mset m k v) k2 = mfind m k2 := by
  have hk : ¬k = k2 := fun h2 => h h2.symm
  induction m with
  | nil => simp [mfind, mset, hk]
  | cons hd tl ih =>
    obtain ⟨k1, v1⟩ := hd
    by_cases h1 : k1 = k
    · subst h1
      simp [mfind, mset, hk]
    · simp only [mset, if_neg h1]
      by_cases h2 : k1 = k2
      · simp [mfind, h2]
      · simp [mfind, h2, ih]

theorem isTerminal_iff (s : RunStatus) :
    s.isTerminal = true ↔ (s = .completed ∨ s = .failed ∨ s = .cancelled) := by
  cases s <;> simp [RunStatus.isTerminal]

theorem emitEvent_agentName (st : AgentState) (rid : String) (e : Event) :
    (emitEvent st rid e).agentName = st.agentName := rfl

theorem emitEvent_runs (st : AgentState) (rid : String) (e : Event) :
    (emitEvent st rid e).runs = st.runs := rfl

theorem emitEvent_sessions (st : AgentState) (rid : String) (e : Event) :
    (emitEvent st rid e).sessions = st.sessions := rfl

theorem emitEvent_runEvents (st : AgentState) (rid : String) (e : Event) :
    (emitEvent st rid e).runEvents
      = mset st.runEvents rid ((mfind st.runEvents rid).getD [] ++ [e]) := rfl

theorem ensureSession_agentName (st : AgentState) (sid : String) (t0 : Nat) :
    (ensureSession st sid t0).agentName = st.agentName := by
  unfold ensureSession; split <;> rfl

theorem ensureSession_runs (st : AgentState) (sid : String) (t0 : Nat) :
    (ensureSession st sid t0).runs = st.runs := by
  unfold ensureSession; split <;> rfl

theorem ensureSession_runEvents (st : AgentState) (sid : String) (t0 : Nat) :
    (ensureSession st sid t0).runEvents = st.runEvents := by
  unfold ensureSession; split <;> rfl

theorem ensureSession_sessions_self (st : AgentState) (sid : String) (t0 : Nat) :
    mfind (ensureSession st sid t0).sessions sid
      = some ((mfind st.sessions sid).getD { runs := [], createdAt := t0 }) := by
  unfold ensureSession
  cases hm : mfind st.sessions sid with
  | none => simp [hm, mfind_mset_self]
  | some e => simp [hm]

theorem ensureSession_sessions_ne (st : AgentState) (sid : String) (t0 : Nat)
    (s : String) (h : s ≠ sid) :
    mfind (ensureSession st sid t0).sessions s = mfind st.sessions s := by
  unfold ensureSession
  split
  · rfl
  · simp [mfind_mset_ne _ _ _ _ h]

theorem sessionPush_self (sessions : List (String × SessionEntry))
    (sid rid : String) (e : SessionEntry) (h : mfind sessions sid = some e) :
    mfind (sessionPush sessions sid rid) sid
      = some { e with runs := e.runs ++ [rid] } := by
  unfold sessionPush
  rw [h]
  simp [mfind_mset_self]

theorem sessionPush_ne (sessions : List (String × SessionEntry))
    (sid rid s : String) (h : s ≠ sid) :
    mfind (sessionPush sessions sid rid) s = mfind sessions s := by
  unfold sessionPush
  cases hm : mfind sessions sid with
  | none => rfl
  | some e => simp [mfind_mset_ne _ _ _ _ h]

theorem runACP_agentName (st : AgentState) (input : List Message)
    (rid sid : String) (llm : List LLMMessage → Except String String)
    (t0 t1 : Nat) :
    (runACP st input rid sid llm t0 t1).1.agentName = st.agentName := by
  unfold runACP
  cases h : llm (convertACPMessagesToLLM input) with
  | ok content => simp [h, emitEvent_agentName, ensureSession_agentName]
  | error msg => simp [h, emitEvent_agentName, ensureSession_agentName]

theorem runACP_snd (st : AgentState) (input : List Message)
    (rid sid : String) (llm : List LLMMessage → Except String String)
    (t0 t1 : Nat) :
    (runACP st input rid sid llm t0 t1).2
      = acpRunResult st.agentName input rid sid llm t0 t1 := by
  unfold runACP acpRunResult
  cases h : llm (convertACPMessagesToLLM input) with
  | ok content => simp [h, emitEvent_agentName, ensureSession_agentName]
  | error msg => simp [h, emitEvent_agentName, ensureSession_agentName]

theorem runACP_runs_self (st : AgentState) (input : List Message)
    (rid sid : String) (llm : List LLMMessage → Except String String)
    (t0 t1 : Nat) :
    mfind (runACP st input rid sid llm t0 t1).1.runs rid
      = some (acpRunResult st.agentName input rid sid llm t0 t1) := by
  unfold runACP acpRunResult
  cases h : llm (convertACPMessagesToLLM input) with
  | ok content =>
    simp [h, emitEvent_runs, emitEvent_agentName, ensureSession_agentName,
      ensureSession_runs, mfind_mset_self]
  | error msg =>
    simp [h, emitEvent_runs, emitEvent_agentName, ensureSession_agentName,
      ensureSession_runs, mfind_mset_self]

theorem runACP_runs_ne (st : AgentState) (input : List Message)
    (rid sid : String) (llm : List LLMMessage → Except String String)
    (t0 t1 : Nat) (r : String) (h : r ≠ rid) :
    mfind (runACP st input rid sid llm t0 t1).1.runs r = mfind st.runs r := by
  unfold runACP
  cases hm : llm (convertACPMessagesToLLM input) with
  | ok content =>
    simp [hm, emitEvent_runs, ensureSession_runs, mfind_mset_ne _ _ _ _ h]
  | error msg =>
    simp [hm, emitEvent_runs, ensureSession_runs, mfind_mset_ne _ _ _ _ h]

theorem runACP_events_self (st : AgentState) (input : List Message)
    (rid sid : String) (llm : List LLMMessage → Except String String)
    (t0 t1 : Nat) :
    mfind (runACP st input rid sid llm t0 t1).1.runEvents rid
      = some (acpRunEvents st.agentName input rid sid llm t0 t1) := by
  unfold runACP acpRunEvents acpRunResult acpFinalEventType
  cases h : llm (convertACPMessagesToLLM input) with
  | ok content =>
    simp [h, emitEvent_runEvents, emitEvent_runs, emitEvent_agentName,
      ensureSession_agentName, ensureSession_runEvents, ensureSession_runs,
      mfind_mset_self]
  | error msg =>
    simp [h, emitEvent_runEvents, emitEvent_runs, emitEvent_agentName,
      ensureSession_agentName, ensureSession_runEvents, ensureSession_runs,
      mfind_mset_self]

theorem runACP_events_ne (st : AgentState) (input : List Message)
    (rid sid : String) (llm : List LLMMessage → Except String String)
    (t0 t1 : Nat) (r : String) (h : r ≠ rid) :
    mfind (runACP st input rid sid llm t0 t1).1.runEvents r
      = mfind st.runEvents r := by
  unfold runACP
  cases hm : llm (convertACPMessagesToLLM input) with
  | ok content =>
    simp [hm, emitEvent_runEvents, ensureSession_runEvents,
      mfind_mset_ne _ _ _ _ h]
  | error msg =>
    simp [hm, emitEvent_runEvents, ensureSession_runEvents,
      mfind_mset_ne _ _ _ _ h]

theorem runACP_sessions_self (st : AgentState) (input : List Message)
    (rid sid : String) (llm : List LLMMessage → Except String String)
    (t0 t1 : Nat) :
    mfind (runACP st input rid sid llm t0 t1).1.sessions sid
      = some { (mfind st.sessions sid).getD { runs := [], createdAt := t0 } with
               runs := ((mfind st.sessions sid).getD
                          { runs := [], createdAt := t0 }).runs ++ [rid] } := by
  unfold runACP
  cases hm : llm (convertACPMessagesToLLM input) with
  | ok content =>
    simp [hm, emitEvent_sessions,
      sessionPush_self _ _ _ _ (ensureSession_sessions_self st sid t0)]
  | error msg =>
    simp [hm, emitEvent_sessions,
      sessionPush_self _ _ _ _ (ensureSession_sessions_self st sid t0)]

theorem runACP_sessions_ne (st : AgentState) (input : List Message)
    (rid sid : String) (llm : List LLMMessage → Except String String)
    (t0 t1 : Nat) (s : String) (h : s ≠ sid) :
    mfind (runACP st input rid sid llm t0 t1).1.sessions s
      = mfind st.sessions s := by
  unfold runACP
  cases hm : llm (convertACPMessagesToLLM input) with
  | ok content =>
    simp [hm, emitEvent_sessions, sessionPush_ne _ _ _ _ h,
      ensureSession_sessions_ne _ _ _ _ h]
  | error msg =>
    simp [hm, emitEvent_sessions, sessionPush_ne _ _ _ _ h,
      ensureSession_sessions_ne _ _ _ _ h]

theorem cancelRun_not_found (st : AgentState) (rid : String) (now : Nat)
    (h : mfind st.runs rid = none) : cancelRun st rid now = (st, none) := by
  simp [cancelRun, h]

theorem cancelRun_terminal (st : AgentState) (rid : String) (now : Nat)
    (run : Run) (h : mfind st.runs rid = some run)
    (ht : run.status.isTerminal = true) :
    cancelRun st rid now = (st, some run) := by
  simp only [cancelRun, h]
  rw [if_pos ((isTerminal_iff run.status).mp ht)]

theorem cancelRun_active (st : AgentState) (rid : String) (now : Nat)
    (run : Run) (h : mfind st.runs rid = some run)
    (ht : run.status.isTerminal = false) :
    (cancelRun st rid now).2 = some (cancelledOf run now)
      ∧ mfind (cancelRun st rid now).1.runs rid = some (cancelledOf run now)
      ∧ mfind (cancelRun st rid now).1.runEvents rid
          = some ((mfind st.runEvents rid).getD []
                    ++ [{ type := "run.cancelled", run := cancelledOf run now }]) := by
  have hc : ¬(run.status = .completed ∨ run.status = .failed ∨
      run.status = .cancelled) := by
    intro hc
    rw [(isTerminal_iff run.status).mpr hc] at ht
    exact Bool.true_eq_false.mp ht
  simp [cancelRun, h, hc, cancelledOf, emitEvent_runs, emitEvent_runEvents,
    mfind_mset_self, mfind_mset_ne]

theorem cancelRun_runs_ne (st : AgentState) (rid : String) (now : Nat)
    (r : String) (h : r ≠ rid) :
    mfind (cancelRun st rid now).1.runs r = mfind st.runs r := by
  unfold cancelRun
  cases hm : mfind st.runs rid with
  | none => rfl
  | some run =>
    simp only []
    split
    · rfl
    · simp [emitEvent_runs, mfind_mset_ne _ _ _ _ h]

theorem cancelRun_events_ne (st : AgentState) (rid : String) (now : Nat)
    (r : String) (h : r ≠ rid) :
    mfind (cancelRun st rid now).1.runEvents r = mfind st.runEvents r := by
  unfold cancelRun
  cases hm : mfind st.runs rid with
  | none => rfl
  | some run =>
    simp only []
    split
    · rfl
    · simp [emitEvent_runEvents, mfind_mset_ne _ _ _ _ h]

theorem resumeRun_not_found (st : AgentState) (rid : String)
    (p : Option String) (now : Nat) (h : mfind st.runs rid = none) :
    resumeRun st rid p now = (st, none) := by
  simp [resumeRun, h]

theorem resumeRun_not_awaiting (st : AgentState) (rid : String)
    (p : Option String) (now : Nat) (run : Run)
    (h : mfind st.runs rid = some run) (hs : run.status ≠ .awaiting) :
    resumeRun st rid p now = (st, none) := by
  simp [resumeRun, h, hs]

theorem resumeRun_awaiting (st : AgentState) (rid : String)
    (p : Option String) (now : Nat) (run : Run)
    (h : mfind st.runs rid = some run) (hs : run.status = .awaiting) :
    (resumeRun st rid p now).2 = some (resumedOf run now)
      ∧ mfind (resumeRun st rid p now).1.runs rid = some (resumedOf run now)
      ∧ mfind (resumeRun st rid p now).1.runEvents rid
          = some ((mfind st.runEvents rid).getD []
                    ++ [{ type := "run.completed", run := resumedOf run now }]) := by
  simp [resumeRun, h, hs, resumedOf, emitEvent_runs, emitEvent_runEvents,
    mfind_mset_self]

theorem resumeRun_runs_ne (st : AgentState) (rid : String)
    (p : Option String) (now : Nat) (r : String) (h : r ≠ rid) :
    mfind (resumeRun st rid p now).1.runs r = mfind st.runs r := by
  unfold resumeRun
  cases hm : mfind st.runs rid with
  | none => rfl
  | some run =>
    simp only []
    split
    · rfl
    · simp [emitEvent_runs, mfind_mset_ne _ _ _ _ h]

theorem resumeRun_events_ne (st : AgentState) (rid : String)
    (p : Option String) (now : Nat) (r : String) (h : r ≠ rid) :
    mfind (resumeRun st rid p now).1.runEvents r = mfind st.runEvents r := by
  unfold resumeRun
  cases hm : mfind st.runs rid with
  | none => rfl
  | some run =>
    simp only []
    split
    · rfl
    · simp [emitEvent_runEvents, mfind_mset_ne _ _ _ _ h]

theorem step_preserves_terminal (st : AgentState) (op : Op) (r : String)
    (run : Run) (hfresh : opFresh st op = true)
    (hrun : mfind st.runs r = some run)
    (hterm : run.status.isTerminal = true) :
    mfind (step st op).runs r = some run := by
  cases op with
  | runOp input rid sid llm t0 t1 =>
    have hne : r ≠ rid := by
      intro he
      subst he
      simp only [opFresh] at hfresh
      rw [hrun] at hfresh
      simp at hfresh
    simp only [step]
    rw [runACP_runs_ne _ _ _ _ _ _ _ _ hne]
    exact hrun
  | cancelOp rid now =>
    by_cases he : r = rid
    · subst he
      simp only [step]
      rw [cancelRun_terminal st r now run hrun hterm]
      exact hrun
    · simp only [step]
      rw [cancelRun_runs_ne st rid now r he]
      exact hrun
  | resumeOp rid p now =>
    by_cases he : r = rid
    · subst he
      simp only [step]
      have hs : run.status ≠ .awaiting := by
        intro hs
        rw [hs] at hterm
        simp [RunStatus.isTerminal] at hterm
      rw [resumeRun_not_awaiting st r p now run hrun hs]
      exact hrun
    · simp only [step]
      rw [resumeRun_runs_ne st rid p now r he]
      exact hrun

theorem execTrace_preserves_terminal (ops : List Op) (st : AgentState)
    (r : String) (run : Run) (hfresh : freshTrace st ops = true)
    (hrun : mfind st.runs r = some run)
    (hterm : run.status.isTerminal = true) :
    mfind (execTrace st ops).runs r = some run := by
  induction ops generalizing st with
  | nil => exact hrun
  | cons op ops ih =>
    simp only [freshTrace, Bool.and_eq_true] at hfresh
    simp only [execTrace, List.foldl_cons]
    exact ih (step st op) hfresh.2
      (step_preserves_terminal st op r run hfresh.1 hrun hterm)

theorem step_enter_sets_finished (st : AgentState) (op : Op) (r : String)
    (run : Run) (hfresh : opFresh st op = true)
    (hbefore : nonTerminalOrAbsent st r = true)
    (hafter : mfind (step st op).runs r = some run)
    (hterm : run.status.isTerminal = true) :
    run.finished_at.isSome = true := by
  cases op with
  | runOp input rid sid llm t0 t1 =>
    by_cases he : r = rid
    · subst he
      simp only [step] at hafter
      rw [runACP_runs_self] at hafter
      have hrr : run = acpRunResult st.agentName input r sid llm t0 t1 :=
        (Option.some.inj hafter).symm
      subst hrr
      unfold acpRunResult
      cases h2 : llm (convertACPMessagesToLLM input) with
      | ok content => simp [initialRun]
      | error msg => simp
    · exfalso
      simp only [step] at hafter
      rw [runACP_runs_ne _ _ _ _ _ _ _ _ he] at hafter
      unfold nonTerminalOrAbsent at hbefore
      rw [hafter] at hbefore
      simp [hterm] at hbefore
  | cancelOp rid now =>
    by_cases he : r = rid
    · subst he
      simp only [step] at hafter
      cases hm : mfind st.runs r with
      | none =>
        rw [cancelRun_not_found st r now hm] at hafter
        exact absurd hafter (by simp [hm])
      | some run0 =>
        unfold nonTerminalOrAbsent at hbefore
        rw [hm] at hbefore
        have ht0 : run0.status.isTerminal = false := by
          simpa using hbefore
        obtain ⟨_, hruns, _⟩ := cancelRun_active st r now run0 hm ht0
        rw [hruns] at hafter
        have hrr : run = cancelledOf run0 now := (Option.some.inj hafter).symm
        subst hrr
        simp [cancelledOf]
    · exfalso
      simp only [step] at hafter
      rw [cancelRun_runs_ne st rid now r he] at hafter
      unfold nonTerminalOrAbsent at hbefore
      rw [hafter] at hbefore
      simp [hterm] at hbefore
  | resumeOp rid p now =>
    by_cases he : r = rid
    · subst he
      simp only [step] at hafter
      cases hm : mfind st.runs r with
      | none =>
        rw [resumeRun_not_found st r p now hm] at hafter
        exact absurd hafter (by simp [hm])
      | some run0 =>
        by_cases hs : run0.status = .awaiting
        · obtain ⟨_, hruns, _⟩ := resumeRun_awaiting st r p now run0 hm hs
          rw [hruns] at hafter
          have hrr : run = resumedOf run0 now := (Option.some.inj hafter).symm
          subst hrr
          simp [resumedOf]
        · exfalso
          rw [resumeRun_not_awaiting st r p now run0 hm hs] at hafter
          rw [hm] at hafter
          have hrr : run0 = run := Option.some.inj hafter
          subst hrr
          unfold nonTerminalOrAbsent at hbefore
          rw [hm] at hbefore
          simp [hterm] at hbefore
    · exfalso
      simp only [step] at hafter
      rw [resumeRun_runs_ne st rid p now r he] at hafter
      unfold nonTerminalOrAbsent at hbefore
      rw [hafter] at hbefore
      simp [hterm] at hbefore

theorem acpRunEvents_length (agentName : String) (input : List Message)
    (rid sid : String) (llm : List LLMMessage → Except String String)
    (t0 t1 : Nat) :
    (acpRunEvents agentName input rid sid llm t0 t1).length = 3 := rfl

theorem acpRunEvents_getLast (agentName : String) (input : List Message)
    (rid sid : String) (llm : List LLMMessage → Except String String)
    (t0 t1 : Nat) :
    (acpRunEvents agentName input rid sid llm t0 t1).getLast?
      = some { type := acpFinalEventType input llm,
               run := acpRunResult agentName input rid sid llm t0 t1 } := rfl

theorem step_runs_isSome (st : AgentState) (op : Op) (r : String)
    (h : (mfind st.runs r).isSome = true) :
    (mfind (step st op).runs r).isSome = true := by
  cases op with
  | runOp input rid sid llm t0 t1 =>
    by_cases he : r = rid
    · subst he
      simp only [step]
      rw [runACP_runs_self]
      rfl
    · simp only [step]
      rw [runACP_runs_ne _ _ _ _ _ _ _ _ he]
      exact h
  | cancelOp rid now =>
    by_cases he : r = rid
    · subst he
      cases hm : mfind st.runs r with
      | none => rw [hm] at h; simp at h
      | some run =>
        by_cases ht : run.status.isTerminal = true
        · simp only [step]
          rw [cancelRun_terminal st r now run hm ht, hm]
          rfl
        · have ht2 : run.status.isTerminal = false := by
            simpa using ht
          obtain ⟨_, hruns, _⟩ := cancelRun_active st r now run hm ht2
          simp only [step]
          rw [hruns]
          rfl
    · simp only [step]
      rw [cancelRun_runs_ne st rid now r he]
      exact h
  | resumeOp rid p now =>
    by_cases he : r = rid
    · subst he
      cases hm : mfind st.runs r with
      | none => rw [hm] at h; simp at h
      | some run =>
        by_cases hs : run.status = .awaiting
        · obtain ⟨_, hruns, _⟩ := resumeRun_awaiting st r p now run hm hs
          simp only [step]
          rw [hruns]
          rfl
        · simp only [step]
          rw [resumeRun_not_awaiting st r p now run hm hs, hm]
          rfl
    · simp only [step]
      rw [resumeRun_runs_ne st rid p now r he]
      exact h

theorem step_runs_none (st : AgentState) (op : Op) (r : String)
    (ha : mfind st.runs r = none) (hno : opCreates op r = 0) :
    mfind (step st op).runs r = none := by
  cases op with
  | runOp input rid sid llm t0 t1 =>
    have hne : r ≠ rid := by
      intro he
      subst he
      simp [opCreates] at hno
    simp only [step]
    rw [runACP_runs_ne _ _ _ _ _ _ _ _ hne]
    exact ha
  | cancelOp rid now =>
    by_cases he : r = rid
    · subst he
      simp only [step]
      rw [cancelRun_not_found st r now ha]
      exact ha
    · simp only [step]
      rw [cancelRun_runs_ne st rid now r he]
      exact ha
  | resumeOp rid p now =>
    by_cases he : r = rid
    · subst he
      simp only [step]
      rw [resumeRun_not_found st r p now ha]
      exact ha
    · simp only [step]
      rw [resumeRun_runs_ne st rid p now r he]
      exact ha

theorem traceCreates_of_present (ops : List Op) (st : AgentState) (r : String)
    (hp : (mfind st.runs r).isSome = true)
    (hfresh : freshTrace st ops = true) :
    traceCreates ops r = 0 := by
  induction ops generalizing st with
  | nil => rfl
  | cons op ops ih =>
    simp only [freshTrace, Bool.and_eq_true] at hfresh
    have hrest := ih (step st op) (step_runs_isSome st op r hp) hfresh.2
    cases op with
    | runOp input rid sid llm t0 t1 =>
      have hne : rid ≠ r := by
        intro he
        subst he
        simp only [opFresh, Option.isNone_iff_eq_none] at hfresh
        rw [hfresh.1] at hp
        simp at hp
      simp [traceCreates, opCreates, hne, hrest]
    | cancelOp rid now => simp [traceCreates, opCreates, hrest]
    | resumeOp rid p now => simp [traceCreates, opCreates, hrest]

theorem traceCreates_of_created (ops : List Op) (st : AgentState) (r : String)
    (ha : mfind st.runs r = none) (hfresh : freshTrace st ops = true)
    (hp : (mfind (execTrace st ops).runs r).isSome = true) :
    traceCreates ops r = 1 := by
  induction ops generalizing st with
  | nil =>
    simp only [execTrace, List.foldl_nil] at hp
    rw [ha] at hp
    simp at hp
  | cons op ops ih =>
    simp only [freshTrace, Bool.and_eq_true] at hfresh
    simp only [execTrace, List.foldl_cons] at hp
    cases op with
    | runOp input rid sid llm t0 t1 =>
      by_cases he : rid = r
      · subst he
        have hsome : (mfind (step st (Op.runOp input rid sid llm t0 t1)).runs rid).isSome = true := by
          simp only [step]
          rw [runACP_runs_self]
          rfl
        have h0 := traceCreates_of_present ops _ rid hsome hfresh.2
        simp [traceCreates, opCreates, h0]
      · have hne : r ≠ rid := fun hh => he hh.symm
        have ha2 : mfind (step st (Op.runOp input rid sid llm t0 t1)).runs r = none := by
          simp only [step]
          rw [runACP_runs_ne _ _ _ _ _ _ _ _ hne]
          exact ha
        have h1 := ih (step st (Op.runOp input rid sid llm t0 t1)) ha2 hfresh.2 hp
        simp [traceCreates, opCreates, he, h1]
    | cancelOp rid now =>
      have ha2 : mfind (step st (Op.cancelOp rid now)).runs r = none :=
        step_runs_none st (Op.cancelOp rid now) r ha rfl
      have h1 := ih (step st (Op.cancelOp rid now)) ha2 hfresh.2 hp
      simp [traceCreates, opCreates, h1]
    | resumeOp rid p now =>
      have ha2 : mfind (step st (Op.resumeOp rid p now)).runs r = none :=
        step_runs_none st (Op.resumeOp rid p now) r ha rfl
      have h1 := ih (step st (Op.resumeOp rid p now)) ha2 hfresh.2 hp
      simp [traceCreates, opCreates, h1]

theorem step_preserves_domInv (st : AgentState) (op : Op)
    (hdom : eventsDomInv st) : eventsDomInv (step st op) := by
  intro r hr
  cases op with
  | runOp input rid sid llm t0 t1 =>
    by_cases he : r = rid
    · subst he
      simp only [step] at hr
      rw [runACP_runs_self] at hr
      simp at hr
    · simp only [step] at hr ⊢
      unfold runEventsOf
      rw [runACP_events_ne _ _ _ _ _ _ _ _ he]
      rw [runACP_runs_ne _ _ _ _ _ _ _ _ he] at hr
      exact hdom r hr
  | cancelOp rid now =>
    by_cases he : r = rid
    · subst he
      cases hm : mfind st.runs r with
      | none =>
        simp only [step] at hr ⊢
        rw [cancelRun_not_found st r now hm]
        exact hdom r hm
      | some run =>
        exfalso
        have := step_runs_isSome st (Op.cancelOp r now) r (by rw [hm]; rfl)
        rw [hr] at this
        simp at this
    · simp only [step] at hr ⊢
      unfold runEventsOf
      rw [cancelRun_events_ne st rid now r he]
      rw [cancelRun_runs_ne st rid now r he] at hr
      exact hdom r hr
  | resumeOp rid p now =>
    by_cases he : r = rid
    · subst he
      cases hm : mfind st.runs r with
      | none =>
        simp only [step] at hr ⊢
        rw [resumeRun_not_found st r p now hm]
        exact hdom r hm
      | some run =>
        exfalso
        have := step_runs_isSome st (Op.resumeOp r p now) r (by rw [hm]; rfl)
        rw [hr] at this
        simp at this
    · simp only [step] at hr ⊢
      unfold runEventsOf
      rw [resumeRun_events_ne st rid p now r he]
      rw [resumeRun_runs_ne st rid p now r he] at hr
      exact hdom r hr

theorem step_events_length (st : AgentState) (op : Op) (r : String)
    (hdom : eventsDomInv st) (hfresh : opFresh st op = true) :
    (runEventsOf (step st op) r).length
      = (runEventsOf st r).length + opRunWrites st op r + opCreates op r := by
  cases op with
  | runOp input rid sid llm t0 t1 =>
    by_cases he : rid = r
    · subst he
      have hnone : mfind st.runs rid = none := by
        simpa only [opFresh, Option.isNone_iff_eq_none] using hfresh
      have hemp : runEventsOf st rid = [] := hdom rid hnone
      simp only [step]
      unfold runEventsOf
      rw [runACP_events_self]
      simp only [runEventsOf] at hemp
      simp [opRunWrites, opCreates, acpRunEvents, hemp]
    · have hne : r ≠ rid := fun hh => he hh.symm
      simp only [step]
      unfold runEventsOf
      rw [runACP_events_ne _ _ _ _ _ _ _ _ hne]
      simp [opRunWrites, opCreates, he]
  | cancelOp rid now =>
    by_cases he : rid = r
    · subst he
      cases hm : mfind st.runs rid with
      | none =>
        simp only [step]
        rw [cancelRun_not_found st rid now hm]
        simp [opRunWrites, opCreates, hm]
      | some run =>
        by_cases ht : run.status.isTerminal = true
        · simp only [step]
          rw [cancelRun_terminal st rid now run hm ht]
          simp [opRunWrites, opCreates, hm, (isTerminal_iff run.status).mp ht]
        · have ht2 : run.status.isTerminal = false := by simpa using ht
          have hc : ¬(run.status = .completed ∨ run.status = .failed ∨
              run.status = .cancelled) := by
            intro hc
            rw [(isTerminal_iff run.status).mpr hc] at ht2
            exact Bool.true_eq_false.mp ht2
          obtain ⟨_, _, hev⟩ := cancelRun_active st rid now run hm ht2
          simp only [step]
          unfold runEventsOf
          rw [hev]
          simp [opRunWrites, opCreates, hm, hc, runEventsOf]
    · have hne : r ≠ rid := fun hh => he hh.symm
      simp only [step]
      unfold runEventsOf
      rw [cancelRun_events_ne st rid now r hne]
      simp [opRunWrites, opCreates, he]
  | resumeOp rid p now =>
    by_cases he : rid = r
    · subst he
      cases hm : mfind st.runs rid with
      | none =>
        simp only [step]
        rw [resumeRun_not_found st rid p now hm]
        simp [opRunWrites, opCreates, hm]
      | some run =>
        by_cases hs : run.status = .awaiting
        · obtain ⟨_, _, hev⟩ := resumeRun_awaiting st rid p now run hm hs
          simp only [step]
          unfold runEventsOf
          rw [hev]
          simp [opRunWrites, opCreates, hm, hs, runEventsOf]
        · simp only [step]
          rw [resumeRun_not_awaiting st rid p now run hm hs]
          simp [opRunWrites, opCreates, hm, hs]
    · have hne : r ≠ rid := fun hh => he hh.symm
      simp only [step]
      unfold runEventsOf
      rw [resumeRun_events_ne st rid p now r hne]
      simp [opRunWrites, opCreates, he]

theorem execTrace_events_length (ops : List Op) (st : AgentState) (r : String)
    (hdom : eventsDomInv st) (hfresh : freshTrace st ops = true) :
    (runEventsOf (execTrace st ops) r).length
      = (runEventsOf st r).length + traceWrites st ops r + traceCreates ops r := by
  induction ops generalizing st with
  | nil => simp [execTrace, traceWrites, traceCreates]
  | cons op ops ih =>
    simp only [freshTrace, Bool.and_eq_true] at hfresh
    simp only [execTrace, List.foldl_cons, traceWrites, traceCreates]
    have h1 := ih (step st op) (step_preserves_domInv st op hdom) hfresh.2
    simp only [execTrace] at h1
    rw [h1, step_events_length st op r hdom hfresh.1]
    ring

theorem step_preserves_lastEventInv (st : AgentState) (op : Op)
    (hinv : lastEventInv st) : lastEventInv (step st op) := by
  intro r run hr
  cases op with
  | runOp input rid sid llm t0 t1 =>
    by_cases he : r = rid
    · subst he
      simp only [step] at hr ⊢
      rw [runACP_runs_self] at hr
      unfold runEventsOf
      rw [runACP_events_self]
      refine ⟨{ type := acpFinalEventType input llm,
                run := acpRunResult st.agentName input r sid llm t0 t1 }, ?_,
              Option.some.inj hr⟩
      simp only [Option.getD_some]
      exact acpRunEvents_getLast _ _ _ _ _ _ _
    · simp only [step] at hr ⊢
      unfold runEventsOf
      rw [runACP_events_ne _ _ _ _ _ _ _ _ he]
      rw [runACP_runs_ne _ _ _ _ _ _ _ _ he] at hr
      exact hinv r run hr
  | cancelOp rid now =>
    by_cases he : r = rid
    · subst he
      cases hm : mfind st.runs r with
      | none =>
        simp only [step] at hr
        rw [cancelRun_not_found st r now hm] at hr
        rw [hm] at hr
        cases hr
      | some run0 =>
        by_cases ht : run0.status.isTerminal = true
        · simp only [step] at hr ⊢
          rw [cancelRun_terminal st r now run0 hm ht] at hr ⊢
          exact hinv r run hr
        · have ht2 : run0.status.isTerminal = false := by simpa using ht
          obtain ⟨_, hruns, hev⟩ := cancelRun_active st r now run0 hm ht2
          simp only [step] at hr ⊢
          rw [hruns] at hr
          unfold runEventsOf
          rw [hev]
          refine ⟨{ type := "run.cancelled", run := cancelledOf run0 now }, ?_,
                  Option.some.inj hr⟩
          simp only [Option.getD_some]
          exact List.getLast?_concat _
    · simp only [step] at hr ⊢
      unfold runEventsOf
      rw [cancelRun_events_ne st rid now r he]
      rw [cancelRun_runs_ne st rid now r he] at hr
      exact hinv r run hr
  | resumeOp rid p now =>
    by_cases he : r = rid
    · subst he
      cases hm : mfind st.runs r with
      | none =>
        simp only [step] at hr
        rw [resumeRun_not_found st r p now hm] at hr
        rw [hm] at hr
        cases hr
      | some run0 =>
        by_cases hs : run0.status = .awaiting
        · obtain ⟨_, hruns, hev⟩ := resumeRun_awaiting st r p now run0 hm hs
          simp only [step] at hr ⊢
          rw [hruns] at hr
          unfold runEventsOf
          rw [hev]
          refine ⟨{ type := "run.completed", run := resumedOf run0 now }, ?_,
                  Option.some.inj hr⟩
          simp only [Option.getD_some]
          exact List.getLast?_concat _
        · simp only [step] at hr ⊢
          rw [resumeRun_not_awaiting st r p now run0 hm hs] at hr ⊢
          exact hinv r run hr
    · simp only [step] at hr ⊢
      unfold runEventsOf
      rw [resumeRun_events_ne st rid p now r he]
      rw [resumeRun_runs_ne st rid p now r he] at hr
      exact hinv r run hr

theorem execTrace_lastEventInv (ops : List Op) (st : AgentState)
    (hinv : lastEventInv st) : lastEventInv (execTrace st ops) := by
  induction ops generalizing st with
  | nil => exact hinv
  | cons op ops ih =>
    simp only [execTrace, List.foldl_cons]
    exact ih (step st op) (step_preserves_lastEventInv st op hinv)

theorem filter_map_eq_filterMap {α β : Type} (p : α → Bool) (f : α → β)
    (l : List α) :
    (l.filter p).map f = l.filterMap fun a => if p a then some (f a) else none := by
  induction l with
  | nil => rfl
  | cons a l ih =>
    by_cases h : p a
    · simp [List.filter_cons, List.filterMap_cons, h, ih]
    · simp [List.filter_cons, List.filterMap_cons, h, ih]

theorem inbound_role_eq (role : String) :
    (if role.startsWith "agent" then "assistant"
     else if role = "user" then "user" else "user")
    = (if role.startsWith "agent" then "assistant" else "user") := by
  by_cases h : role.startsWith "agent" <;> simp [h]

theorem acpRunResult_session_id (agentName : String) (input : List Message)
    (rid sid : String) (llm : List LLMMessage → Except String String)
    (t0 t1 : Nat) :
    (acpRunResult agentName input rid sid llm t0 t1).session_id = sid := by
  unfold acpRunResult
  cases h : llm (convertACPMessagesToLLM input) with
  | ok content => simp [initialRun]
  | error msg => simp

theorem runACP_sessionRuns (st : AgentState) (input : List Message)
    (rid sid : String) (llm : List LLMMessage → Except String String)
    (t0 t1 : Nat) :
    sessionRunsOf (runACP st input rid sid llm t0 t1).1 sid
      = sessionRunsOf st sid ++ [rid] := by
  unfold sessionRunsOf
  rw [runACP_sessions_self]
  cases hm : mfind st.sessions sid <;> simp [hm]

/-- C4: for every run whose status is terminal (completed, failed or
cancelled), `cancelRun` is idempotent: it returns the run with status,
output, error and `finished_at` unchanged (indeed the whole tracker
state is unchanged) and appends no new event to the run's event
list. -/
theorem cancel_idempotent_on_terminal (st : AgentState) (rid : String)
    (now : Nat) (run : Run) (hrun : mfind st.runs rid = some run)
    (hterm : run.status.isTerminal = true) :
    cancelRun st rid now = (st, some run)
      ∧ runEventsOf (cancelRun st rid now).1 rid = runEventsOf st rid := by
  have h := cancelRun_terminal st rid now run hrun hterm
  exact ⟨h, by rw [h]⟩

/-- C4 witness: cancelling the already-completed run `r1` returns it
unchanged and appends nothing. -/
theorem cancel_idempotent_on_terminal_witness :
    cancelRun sampleTerminalState "r1" 9 = (sampleTerminalState, some sampleCompletedRun)
      ∧ runEventsOf (cancelRun sampleTerminalState "r1" 9).1 "r1"
          = runEventsOf sampleTerminalState "r1" :=
  cancel_idempotent_on_terminal sampleTerminalState "r1" 9 sampleCompletedRun
    (by decide) (by decide)

/-- C5: when the backend call raises an error, `runACP` produces a run
with status `failed`, error code `server_error` carrying the message,
`finished_at` set, empty output, and an event log ending in
`run.failed`. -/
theorem runacp_backend_failure (st : AgentState) (input : List Message)
    (rid sid : String) (llm : List LLMMessage → Except String String)
    (msg : String) (t0 t1 : Nat)
    (hllm : llm (convertACPMessagesToLLM input) = Except.error msg) :
    (runACP st input rid sid llm t0 t1).2
        = { agent_name := st.agentName, session_id := sid, run_id := rid,
            status := RunStatus.failed, await_request := none, output := [],
            error := some { code := "server_error", message := msg, data := none },
            created_at := t0, finished_at := some t1 }
      ∧ mfind (runACP st input rid sid llm t0 t1).1.runs rid
          = some (runACP st input rid sid llm t0 t1).2
      ∧ (runEventsOf (runACP st input rid sid llm t0 t1).1 rid).getLast?
          = some { type := "run.failed", run := (runACP st input rid sid llm t0 t1).2 } := by
  have hsnd := runACP_snd st input rid sid llm t0 t1
  have hres : acpRunResult st.agentName input rid sid llm t0 t1
      = { agent_name := st.agentName, session_id := sid, run_id := rid,
          status := RunStatus.failed, await_request := none, output := [],
          error := some { code := "server_error", message := msg, data := none },
          created_at := t0, finished_at := some t1 } := by
    unfold acpRunResult
    rw [hllm]
  refine ⟨by rw [hsnd, hres], ?_, ?_⟩
  · rw [runACP_runs_self, hsnd]
  · unfold runEventsOf
    rw [runACP_events_self]
    simp only [Option.getD_some]
    rw [acpRunEvents_getLast, hsnd]
    unfold acpFinalEventType
    rw [hllm]

/-- C5 witness: a timeout from the backend yields the failed record. -/
theorem runacp_backend_failure_witness :
    (runACP (agentInit "my-agent") [] "r9" "s1" failLLM 3 4).2
        = { agent_name := "my-agent", session_id := "s1", run_id := "r9",
            status := RunStatus.failed, await_request := none, output := [],
            error := some { code := "server_error", message := "Request timeout",
                            data := none },
            created_at := 3, finished_at := some 4 }
      ∧ mfind (runACP (agentInit "my-agent") [] "r9" "s1" failLLM 3 4).1.runs "r9"
          = some (runACP (agentInit "my-agent") [] "r9" "s1" failLLM 3 4).2
      ∧ (runEventsOf (runACP (agentInit "my-agent") [] "r9" "s1" failLLM 3 4).1 "r9").getLast?
          = some { type := "run.failed",
                   run := (runACP (agentInit "my-agent") [] "r9" "s1" failLLM 3 4).2 } :=
  runacp_backend_failure (agentInit "my-agent") [] "r9" "s1" failLLM
    "Request timeout" 3 4 rfl

/-- C7: the resume route rejects a run that exists but is not
`awaiting` (for example `in-progress`) with HTTP 400 (the spec's
`conflict` condition, carried on the wire as `invalid_input`), and
both the route and `resumeRun` leave the tracker state unchanged. -/
theorem resume_non_awaiting_rejected (st : AgentState) (rid : String)
    (run : Run) (p : Option String) (modeAsync : Bool) (now : Nat)
    (hrun : mfind st.runs rid = some run)
    (hs : run.status ≠ RunStatus.awaiting) :
    resumeRoute st rid p modeAsync now
        = (st, { httpStatus := 400, code := some "invalid_input", run := none })
      ∧ resumeRun st rid p now = (st, none) := by
  constructor
  · unfold resumeRoute getRun
    rw [hrun]
    simp [hs]
  · exact resumeRun_not_awaiting st rid p now run hrun hs

/-- C7 witness: resuming the in-progress run `r2` answers 400 and
leaves the state untouched. -/
theorem resume_non_awaiting_rejected_witness :
    resumeRoute sampleActiveState "r2" none false 7
        = (sampleActiveState,
           { httpStatus := 400, code := some "invalid_input", run := none })
      ∧ resumeRun sampleActiveState "r2" none 7 = (sampleActiveState, none) :=
  resume_non_awaiting_rejected sampleActiveState "r2" sampleInProgressRun
    none false 7 (by decide) (by decide)

/-- C9: calling `runACP` again with a run id already present (even
terminal) signals no error: the model operation is total, the stored
record is replaced by the new execution's record, and the event log is
reset so that exactly the new execution's three events remain. -/
theorem runacp_overwrites_existing (st : AgentState) (rid : String)
    (oldRun : Run) (input : List Message) (sid : String)
    (llm : List LLMMessage → Except String String) (t0 t1 : Nat)
    (_hold : mfind st.runs rid = some oldRun) :
    mfind (runACP st input rid sid llm t0 t1).1.runs rid
        = some (acpRunResult st.agentName input rid sid llm t0 t1)
      ∧ mfind (runACP st input rid sid llm t0 t1).1.runEvents rid
          = some (acpRunEvents st.agentName input rid sid llm t0 t1) :=
  ⟨runACP_runs_self st input rid sid llm t0 t1,
   runACP_events_self st input rid sid llm t0 t1⟩

/-- C9 witness: re-running the id `r1` of an already-completed run
replaces the record with the new (failed) execution's record and leaves
only the three new events. -/
theorem runacp_overwrites_existing_witness :
    mfind (runACP sampleTerminalState [] "r1" "s1" failLLM 5 6).1.runs "r1"
        = some (acpRunResult "my-agent" [] "r1" "s1" failLLM 5 6)
      ∧ mfind (runACP sampleTerminalState [] "r1" "s1" failLLM 5 6).1.runEvents "r1"
          = some (acpRunEvents "my-agent" [] "r1" "s1" failLLM 5 6) :=
  runacp_overwrites_existing sampleTerminalState "r1" sampleCompletedRun
    [] "s1" failLLM 5 6 (by decide)

/-- C10: a successful resume of an `awaiting` run changes only `status`
(to `completed`) and `finished_at`; every other field of the stored and
returned record — `output` (so an empty output stays empty), `error`,
`await_request`, `session_id`, `agent_name`, `created_at` — is kept,
and the resume payload has no effect on the result. -/
theorem resume_frame (st : AgentState) (rid : String) (run : Run)
    (p1 p2 : Option String) (now : Nat)
    (hrun : mfind st.runs rid = some run)
    (hs : run.status = RunStatus.awaiting) :
    (resumeRun st rid p1 now).2
        = some { run with status := RunStatus.completed, finished_at := some now }
      ∧ mfind (resumeRun st rid p1 now).1.runs rid
          = some { run with status := RunStatus.completed, finished_at := some now }
      ∧ resumeRun st rid p1 now = resumeRun st rid p2 now := by
  obtain ⟨h1, h2, _⟩ := resumeRun_awaiting st rid p1 now run hrun hs
  exact ⟨h1, h2, rfl⟩

/-- C10 witness: resuming the awaiting run `r3` with two different
payloads yields the same record, completed with `finished_at` set and
all other fields untouched. -/
theorem resume_frame_witness :
    (resumeRun sampleAwaitingState "r3" (some "payload") 4).2
        = some { sampleAwaitingRun with status := RunStatus.completed, finished_at := some 4 }
      ∧ mfind (resumeRun sampleAwaitingState "r3" (some "payload") 4).1.runs "r3"
          = some { sampleAwaitingRun with status := RunStatus.completed, finished_at := some 4 }
      ∧ resumeRun sampleAwaitingState "r3" (some "payload") 4
          = resumeRun sampleAwaitingState "r3" none 4 :=
  resume_frame sampleAwaitingState "r3" sampleAwaitingRun (some "payload")
    none 4 (by decide) (by decide)

/-- C1: along any sequence of public tracker operations in which every
`runACP` uses a fresh run id, an operation that takes run `r` from
absent-or-non-terminal into a terminal status sets `finished_at` at
that very transition, and the run's whole record (status and
`finished_at` included) never changes over the rest of the trace. -/
theorem terminal_status_frozen (st : AgentState) (op : Op) (ops : List Op)
    (r : String) (run : Run)
    (hfresh : freshTrace st (op :: ops) = true)
    (hbefore : nonTerminalOrAbsent st r = true)
    (hafter : mfind (step st op).runs r = some run)
    (hterm : run.status.isTerminal = true) :
    run.finished_at.isSome = true
      ∧ mfind (execTrace st (op :: ops)).runs r = some run := by
  simp only [freshTrace, Bool.and_eq_true] at hfresh
  refine ⟨step_enter_sets_finished st op r run hfresh.1 hbefore hafter hterm, ?_⟩
  simp only [execTrace, List.foldl_cons]
  exact execTrace_preserves_terminal ops (step st op) r run hfresh.2 hafter hterm

/-- C1 witness: run `r1` completes at its creating `runACP` and later
`cancelRun`/`resumeRun` calls leave its record identical. -/
theorem terminal_status_frozen_witness :
    sampleCompletedRun.finished_at.isSome = true
      ∧ mfind (execTrace (agentInit "my-agent")
            (sampleOp :: [Op.cancelOp "r1" 2, Op.resumeOp "r1" none 3])).runs "r1"
          = some sampleCompletedRun :=
  terminal_status_frozen (agentInit "my-agent") sampleOp
    [Op.cancelOp "r1" 2, Op.resumeOp "r1" none 3] "r1" sampleCompletedRun
    (by decide) (by decide) (by decide) (by decide)

/-- C2 counterexample: the record stored by `runACP` at creation — as
snapshotted verbatim by the first `run.created` event of the run's
log — has status `in-progress`, not `created`. -/
theorem create_status_counterexample :
    (runEventsOf (step (agentInit "my-agent") sampleOp) "r1").head?.map
        (fun e => e.run.status) ≠ some RunStatus.created
      ∧ (runEventsOf (step (agentInit "my-agent") sampleOp) "r1").head?.map
          (fun e => e.run.status) = some RunStatus.inProgress := by
  decide

/-- C2 (amended): `runACP`, given a caller-supplied fresh run id,
inserts a run record whose status is `in-progress` (there is no
`created` phase), appends a `run.created` event snapshotting that
record as the first event of the run's (reset) log, and registers the
run id under its session, creating the session entry when absent. -/
theorem create_inserts_run (st : AgentState) (input : List Message)
    (rid sid : String) (llm : List LLMMessage → Except String String)
    (t0 t1 : Nat) :
    (initialRun st.agentName sid rid t0).status = RunStatus.inProgress
      ∧ (runEventsOf (runACP st input rid sid llm t0 t1).1 rid).head?
          = some { type := "run.created", run := initialRun st.agentName sid rid t0 }
      ∧ mfind (runACP st input rid sid llm t0 t1).1.runs rid
          = some (acpRunResult st.agentName input rid sid llm t0 t1)
      ∧ sessionRunsOf (runACP st input rid sid llm t0 t1).1 sid
          = sessionRunsOf st sid ++ [rid]
      ∧ (mfind (runACP st input rid sid llm t0 t1).1.sessions sid).isSome = true := by
  refine ⟨rfl, ?_, runACP_runs_self st input rid sid llm t0 t1,
    runACP_sessionRuns st input rid sid llm t0 t1, ?_⟩
  · unfold runEventsOf
    rw [runACP_events_self]
    rfl
  · rw [runACP_sessions_self]
    rfl

/-- C3 counterexample: one successful `runACP` leaves three events for
the run but writes its record only twice (in-progress, then completed),
so the event-list length differs from the number of status
transitions. -/
theorem events_length_counterexample :
    ¬((runEventsOf (execTrace (agentInit "my-agent") [sampleOp]) "r1").length
        = traceWrites (agentInit "my-agent") [sampleOp] "r1") := by
  decide

/-- C3 (amended): starting from a fresh tracker, along any sequence of
public operations whose `runACP` calls use fresh run ids, every stored
run's event-list length equals the number of its status transitions
(record writes) plus one — `runACP` emits both `run.created` and
`run.in-progress` for the single insertion of the in-progress record —
and the status embedded in the last event equals the stored status. -/
theorem events_track_transitions (name : String) (ops : List Op) (r : String)
    (run : Run) (hfresh : freshTrace (agentInit name) ops = true)
    (hrun : mfind (execTrace (agentInit name) ops).runs r = some run) :
    (runEventsOf (execTrace (agentInit name) ops) r).length
        = traceWrites (agentInit name) ops r + 1
      ∧ ∃ e : Event,
          (runEventsOf (execTrace (agentInit name) ops) r).getLast? = some e
            ∧ e.run.status = run.status := by
  have hdom : eventsDomInv (agentInit name) := fun r2 _ => rfl
  have hcre : traceCreates ops r = 1 :=
    traceCreates_of_created ops (agentInit name) r rfl hfresh (by rw [hrun]; rfl)
  have hinv : lastEventInv (execTrace (agentInit name) ops) := by
    apply execTrace_lastEventInv
    intro r2 run2 h2
    simp [agentInit, mfind] at h2
  constructor
  · rw [execTrace_events_length ops (agentInit name) r hdom hfresh, hcre]
    have h0 : (runEventsOf (agentInit name) r).length = 0 := rfl
    omega
  · obtain ⟨e, h1, h2⟩ := hinv r run hrun
    exact ⟨e, h1, by rw [h2]⟩

/-- C3 witness: after one successful `runACP`, run `r1` has three
events for two record writes, and the last event carries the stored
completed status. -/
theorem events_track_transitions_witness :
    (runEventsOf (execTrace (agentInit "my-agent") [sampleOp]) "r1").length
        = traceWrites (agentInit "my-agent") [sampleOp] "r1" + 1
      ∧ ∃ e : Event,
          (runEventsOf (execTrace (agentInit "my-agent") [sampleOp]) "r1").getLast? = some e
            ∧ e.run.status = sampleCompletedRun.status :=
  events_track_transitions "my-agent" [sampleOp] "r1" sampleCompletedRun
    (by decide) (by decide)

/-- C6: the inbound conversion returns exactly one `(role, text)` pair
per envelope in envelope order — an envelope with zero text parts
yields an empty-string pair rather than being dropped — and the
conversion coincides pointwise with the spec's description
(`specInboundPair`). -/
theorem inbound_conversion_correct (messages : List Message) :
    (convertACPMessagesToLLM messages).length = messages.length
      ∧ convertACPMessagesToLLM messages = messages.map specInboundPair := by
  have hfun : convertACPMessagesToLLM messages = messages.map specInboundPair := by
    unfold convertACPMessagesToLLM
    apply List.map_congr_left
    intro m _
    simp only [specInboundPair]
    rw [← filter_map_eq_filterMap isTextPart (fun part => part.content.getD "") m.parts]
    rw [inbound_role_eq]
  exact ⟨by rw [hfun, List.length_map], hfun⟩

/-- C8: after three `runACP` calls under session `s1` with distinct
fresh run ids, the session registry lists exactly those three run ids
in creation order, and each of the three stored records carries
`session_id = "s1"`. -/
theorem session_registry_three_runs (name r1 r2 r3 : String)
    (i1 i2 i3 : List Message)
    (l1 l2 l3 : List LLMMessage → Except String String)
    (a1 b1 a2 b2 a3 b3 : Nat)
    (h12 : r1 ≠ r2) (h13 : r1 ≠ r3) (h23 : r2 ≠ r3) :
    sessionRunsOf (execTrace (agentInit name)
        [Op.runOp i1 r1 "s1" l1 a1 b1, Op.runOp i2 r2 "s1" l2 a2 b2,
         Op.runOp i3 r3 "s1" l3 a3 b3]) "s1" = [r1, r2, r3]
      ∧ (mfind (execTrace (agentInit name)
            [Op.runOp i1 r1 "s1" l1 a1 b1, Op.runOp i2 r2 "s1" l2 a2 b2,
             Op.runOp i3 r3 "s1" l3 a3 b3]).runs r1).map (fun run => run.session_id)
          = some "s1"
      ∧ (mfind (execTrace (agentInit name)
            [Op.runOp i1 r1 "s1" l1 a1 b1, Op.runOp i2 r2 "s1" l2 a2 b2,
             Op.runOp i3 r3 "s1" l3 a3 b3]).runs r2).map (fun run => run.session_id)
          = some "s1"
      ∧ (mfind (execTrace (agentInit name)
            [Op.runOp i1 r1 "s1" l1 a1 b1, Op.runOp i2 r2 "s1" l2 a2 b2,
             Op.runOp i3 r3 "s1" l3 a3 b3]).runs r3).map (fun run => run.session_id)
          = some "s1" := by
  have h21 : r2 ≠ r1 := fun h => h12 h.symm
  have h31 : r3 ≠ r1 := fun h => h13 h.symm
  have h32 : r3 ≠ r2 := fun h => h23 h.symm
  simp only [execTrace, List.foldl_cons, List.foldl_nil, step]
  set st0 := agentInit name with hst0
  set st1 := (runACP st0 i1 r1 "s1" l1 a1 b1).1 with hst1
  set st2 := (runACP st1 i2 r2 "s1" l2 a2 b2).1 with hst2
  have hs1 : sessionRunsOf st1 "s1" = [r1] := by
    rw [hst1, runACP_sessionRuns]
    rfl
  have hs2 : sessionRunsOf st2 "s1" = [r1, r2] := by
    rw [hst2, runACP_sessionRuns, hs1]
    rfl
  have hs3 : sessionRunsOf (runACP st2 i3 r3 "s1" l3 a3 b3).1 "s1" = [r1, r2, r3] := by
    rw [runACP_sessionRuns, hs2]
    rfl
  have m1 : mfind st1.runs r1 = some (acpRunResult st0.agentName i1 r1 "s1" l1 a1 b1) := by
    rw [hst1, runACP_runs_self]
  have m2 : mfind st2.runs r2 = some (acpRunResult st1.agentName i2 r2 "s1" l2 a2 b2) := by
    rw [hst2, runACP_runs_self]
  have m3 : mfind (runACP st2 i3 r3 "s1" l3 a3 b3).1.runs r3
      = some (acpRunResult st2.agentName i3 r3 "s1" l3 a3 b3) := by
    rw [runACP_runs_self]
  have m1f : mfind (runACP st2 i3 r3 "s1" l3 a3 b3).1.runs r1
      = some (acpRunResult st0.agentName i1 r1 "s1" l1 a1 b1) := by
    rw [runACP_runs_ne _ _ _ _ _ _ _ _ h13, hst2,
      runACP_runs_ne _ _ _ _ _ _ _ _ h12]
    exact m1
  have m2f : mfind (runACP st2 i3 r3 "s1" l3 a3 b3).1.runs r2
      = some (acpRunResult st1.agentName i2 r2 "s1" l2 a2 b2) := by
    rw [runACP_runs_ne _ _ _ _ _ _ _ _ h23]
    exact m2
  refine ⟨hs3, ?_, ?_, ?_⟩
  · rw [m1f]
    simp [acpRunResult_session_id]
  · rw [m2f]
    simp [acpRunResult_session_id]
  · rw [m3]
    simp [acpRunResult_session_id]

/-- C8 witness: three concrete creations under session `s1`. -/
theorem session_registry_three_runs_witness :
    sessionRunsOf (execTrace (agentInit "my-agent")
        [Op.runOp [] "a" "s1" sampleLLM 0 1, Op.runOp [] "b" "s1" sampleLLM 2 3,
         Op.runOp [] "c" "s1" sampleLLM 4 5]) "s1" = ["a", "b", "c"]
      ∧ (mfind (execTrace (agentInit "my-agent")
            [Op.runOp [] "a" "s1" sampleLLM 0 1, Op.runOp [] "b" "s1" sampleLLM 2 3,
             Op.runOp [] "c" "s1" sampleLLM 4 5]).runs "a").map (fun run => run.session_id)
          = some "s1"
      ∧ (mfind (execTrace (agentInit "my-agent")
            [Op.runOp [] "a" "s1" sampleLLM 0 1, Op.runOp [] "b" "s1" sampleLLM 2 3,
             Op.runOp [] "c" "s1" sampleLLM 4 5]).runs "b").map (fun run => run.session_id)
          = some "s1"
      ∧ (mfind (execTrace (agentInit "my-agent")
            [Op.runOp [] "a" "s1" sampleLLM 0 1, Op.runOp [] "b" "s1" sampleLLM 2 3,
             Op.runOp [] "c" "s1" sampleLLM 4 5]).runs "c").map (fun run => run.session_id)
          = some "s1" :=
  session_registry_three_runs "my-agent" "a" "b" "c" [] [] []
    sampleLLM sampleLLM sampleLLM 0 1 2 3 4 5
    (by decide) (by decide) (by decide)

end ACP
